import Mathlib

/-!
Shallow embedding of the CleverPrintingAgent print spooler
(`src/spooler/PrintSpooler.js`, the `processServerJobs` routine of the main
process, and the `/api/print`, `/api/status` handlers of `APIServer`),
together with theorems settling the specification claims about it.

Modelling conventions:
* JS objects become structures; `null`/`undefined` string fields become
  `Option String`; JS truthiness of a string field is `truthy` below
  (both absent and the empty string are falsy).
* The dispatch loop `processQueue` runs between `await` suspension points;
  we embed its phases separately (`processQueueEnter`, `dispatchPop`,
  `dispatchResume`) so that operations that may interleave at a suspension
  point (`cancelJob`, `retryJob`, `addJob`) can be composed explicitly.
* An uncaught JS `TypeError` escaping the loop is modelled as the `.error`
  branch of `Except`; in that case none of the statements after the throw
  (in particular `this.isProcessing = false`) execute.
* Job ids produced by `generateJobId` are nondeterministic
  (`Date.now`/`Math.random`); they are passed in as explicit arguments.
-/

/-- Job priority strings accepted by the spooler's comparator
(`priorityOrder = { high: 3, normal: 2, low: 1 }`). -/
inductive JobPriority
  | high
  | normal
  | low
deriving DecidableEq, Repr

/-- Numeric rank used by the sort comparator in `processQueue` (line 334). -/
def priorityOrder : JobPriority → Nat
  | .high => 3
  | .normal => 2
  | .low => 1

/-- Job status strings assigned by the spooler. -/
inductive JobStatus
  | queued
  | processing
  | completed
  | failed
  | cancelled
deriving DecidableEq, Repr

/-- The fields of the `jobData` object that the embedded operations read:
the six payload fields consulted by `executePrint`/`addJob`/the API handler,
and the `priority` field. The remaining option fields (printerName, copies,
pageSize, margins, printBackground, metadata) are only forwarded verbatim to
the print call and are not read by any modelled operation. -/
structure JobData where
  pdf : Option String
  pdfBase64 : Option String
  pdfPath : Option String
  pdfUrl : Option String
  html : Option String
  url : Option String
  priority : Option JobPriority
deriving DecidableEq, Repr

/-- JS truthiness of an optional string field: `undefined`, `null` and the
empty string are all falsy. -/
def truthy : Option String → Bool
  | none => false
  | some s => !(s == "")

/-- A job record as built by `addJob` (lines 295-303). `serverJobId` is
absent at creation and assigned afterwards by `processServerJobs`. -/
structure Job where
  id : String
  status : JobStatus
  priority : JobPriority
  data : JobData
  retryCount : Nat
  error : Option String
  serverJobId : Option String
deriving DecidableEq, Repr

/-- The spooler's mutable fields (constructor, lines 11-17). `timestamp`
strings and the config manager itself are not modelled; `maxRetries`,
`retryDelay` and `maxQueueSize` are read once in the constructor and never
change afterwards, so they sit in the state as plain constants. -/
structure SpoolerState where
  jobQueue : List Job
  currentJob : Option Job
  isProcessing : Bool
  defaultPrinter : Option String
  maxRetries : Nat
  maxQueueSize : Nat
deriving DecidableEq, Repr

/-- Lifecycle events emitted by the spooler (`job-added`, `job-updated`,
`job-completed`, `job-failed`). -/
inductive SpoolEvent
  | jobAdded (j : Job)
  | jobUpdated (j : Job)
  | jobCompleted (j : Job)
  | jobFailed (j : Job) (msg : String)
deriving DecidableEq, Repr

/-- The job object literal constructed at the top of `addJob`
(lines 295-303): status `queued`, priority defaulted to `normal`,
`retryCount` 0, `error` null. -/
def mkJob (newId : String) (jobData : JobData) : Job :=
  { id := newId
    status := .queued
    priority := jobData.priority.getD .normal
    data := jobData
    retryCount := 0
    error := none
    serverJobId := none }

/-- The exact message of the throw in `addJob` (line 307). -/
def queueFullMsg : String :=
  "Print queue is full. Please wait for jobs to complete."

/-- `addJob(jobData)` (lines 294-319): build the job object, throw if
`jobQueue.length >= maxQueueSize`, otherwise push to the queue tail and emit
`job-added`.  The throw happens before any mutation, so the error branch
returns the state unchanged with no events.  The final
`if (!isProcessing) processQueue()` kick is modelled as the separate
`processQueueEnter` step. -/
def addJob (s : SpoolerState) (newId : String) (jobData : JobData) :
    Except String Job × SpoolerState × List SpoolEvent :=
  let job := mkJob newId jobData
  if s.jobQueue.length ≥ s.maxQueueSize then
    (.error queueFullMsg, s, [])
  else
    (.ok job, { s with jobQueue := s.jobQueue ++ [job] }, [.jobAdded job])

/-- The comparator of `processQueue` (lines 333-336) as a `≤`-style Bool
relation: the JS comparator returns `priorityOrder[b] - priorityOrder[a]`,
i.e. sorts by priority descending.  `a` may stay before `b` exactly when
`priorityOrder b.priority ≤ priorityOrder a.priority`. -/
def jobLE (a b : Job) : Bool :=
  priorityOrder b.priority ≤ priorityOrder a.priority

/-- Stable insertion of a job into a descending-priority sorted list: the
job goes in front of the first element whose priority rank does not exceed
its own, so earlier elements of equal rank stay in front of it. -/
def insertJob (x : Job) : List Job → List Job
  | [] => [x]
  | y :: ys =>
    if priorityOrder x.priority < priorityOrder y.priority then
      y :: insertJob x ys
    else x :: y :: ys

/-- `this.jobQueue.sort(comparator)`: JS `Array.prototype.sort` is
guaranteed stable (ES2019), so the embedding is a stable sort with the
same comparator — written as a structurally recursive stable insertion
sort so that it evaluates on concrete queues; `sortQueue_eq_mergeSort`
below proves it equal to the library's stable merge sort under `jobLE`,
so nothing depends on the choice of stable sorting algorithm. -/
def sortQueue : List Job → List Job
  | [] => []
  | x :: xs => insertJob x (sortQueue xs)

/-- The sub-sequence of jobs whose priority has the given rank, in queue
order; a stable sort by descending rank is exactly the concatenation of the
rank-3, rank-2 and rank-1 sub-sequences (proved below), which is how the
code's stable `sort` call is reasoned about. -/
def rankFilter (r : Nat) (l : List Job) : List Job :=
  l.filter (fun j => priorityOrder j.priority == r)

/-- Entry guard of `processQueue` (lines 325-329): a no-op (`none`) when
already processing or the queue is empty; otherwise set `isProcessing`. -/
def processQueueEnter (s : SpoolerState) : Option SpoolerState :=
  if s.isProcessing || s.jobQueue.isEmpty then none
  else some { s with isProcessing := true }

/-- One pop of the dispatch loop (lines 331-340): sort the queue by
priority, shift the head into `currentJob`, mark it `processing`, emit
`job-updated`.  Identity when the queue is empty (the `while` guard). -/
def dispatchPop (s : SpoolerState) : SpoolerState × Option Job × List SpoolEvent :=
  match sortQueue s.jobQueue with
  | [] => (s, none, [])
  | j :: rest =>
    let cur := { j with status := JobStatus.processing }
    ({ s with jobQueue := rest, currentJob := some cur }, some cur, [.jobUpdated cur])

/-- The settled outcome of `await this.executePrint(...)`. -/
inductive PrintResult
  | success
  | failure (msg : String)
deriving DecidableEq, Repr

/-- The catch block of the dispatch loop (lines 346-363), reached when the
awaited print rejects or when the try body throws: records the error on
`this.currentJob`, then either re-queues at the head with an incremented
`retryCount` (when strictly below `maxRetries`) or marks the job `failed`.
`this.currentJob` is re-read here, and `cancelJob` may have set it to
`null` during the suspension: then `this.currentJob.error = ...` throws a
`TypeError` that escapes `processQueue` — modelled by the `.error` branch,
in which no statement after the throw runs (in particular `isProcessing`
stays `true` and no event for the job is emitted). -/
def dispatchCatch (s : SpoolerState) (msg : String) :
    Except String (SpoolerState × List SpoolEvent) :=
  match s.currentJob with
  | none =>
    -- `this.currentJob.error = error.message` on null: a second TypeError
    -- escapes the loop
    .error "TypeError: Cannot set properties of null (setting error)"
  | some cur =>
    -- `this.currentJob.error = error.message`, then the retry test reads
    -- `this.currentJob.retryCount` (unchanged by the error assignment)
    if cur.retryCount < s.maxRetries then
      -- retry: increment, set status queued, unshift to the queue head,
      -- emit job-updated, sleep(retryDelay); currentJob = null at bottom
      .ok ({ s with
              jobQueue := { cur with
                              error := some msg
                              retryCount := cur.retryCount + 1
                              status := JobStatus.queued } :: s.jobQueue
              currentJob := none },
           [.jobUpdated { cur with
                            error := some msg
                            retryCount := cur.retryCount + 1
                            status := JobStatus.queued }])
    else
      -- out of retries: mark failed, emit job-failed; currentJob = null
      .ok ({ s with currentJob := none },
           [.jobFailed { cur with
                           error := some msg
                           status := JobStatus.failed } msg])

/-- Resumption of the dispatch loop once the in-flight print settles: the
try/catch of lines 342-365 plus the `this.currentJob = null` at the loop
bottom.  On success the try body marks the re-read `this.currentJob`
completed and emits `job-completed`; when `cancelJob` nulled it during the
suspension, the property assignment throws and control passes to the catch
block, which rethrows (see `dispatchCatch`). -/
def dispatchResume (s : SpoolerState) (res : PrintResult) :
    Except String (SpoolerState × List SpoolEvent) :=
  match res with
  | .failure msg => dispatchCatch s msg
  | .success =>
    match s.currentJob with
    | none =>
      -- `this.currentJob.status = 'completed'` throws; the catch block then
      -- rethrows on its own null property assignment
      dispatchCatch s "TypeError: Cannot set properties of null (setting status)"
    | some cur =>
      .ok ({ s with currentJob := none },
           [.jobCompleted { cur with status := JobStatus.completed }])

/-- Remove the first job with the given id, as
`findIndex` + `splice(index, 1)` do in `cancelJob` (lines 608-610). -/
def removeFirstById : List Job → String → Option (Job × List Job)
  | [], _ => none
  | j :: rest, jobId =>
    if j.id == jobId then some (j, rest)
    else
      match removeFirstById rest jobId with
      | some (k, rest') => some (k, j :: rest')
      | none => none

/-- `cancelJob(jobId)` (lines 607-626): splice a queued job out and mark it
cancelled; else, if the current job matches, mark it cancelled and null out
`currentJob` (the in-flight print is not interrupted).  The
`setImmediate(() => this.processQueue())` it schedules is modelled as a
subsequent `processQueueEnter` step (which is a no-op while
`isProcessing` is still true). -/
def cancelJob (s : SpoolerState) (jobId : String) :
    SpoolerState × Bool × List SpoolEvent :=
  match removeFirstById s.jobQueue jobId with
  | some (job, rest) =>
    let job1 := { job with status := JobStatus.cancelled }
    ({ s with jobQueue := rest }, true, [.jobUpdated job1])
  | none =>
    match s.currentJob with
    | some cur =>
      if cur.id == jobId then
        let cur1 := { cur with status := JobStatus.cancelled }
        ({ s with currentJob := none }, true, [.jobUpdated cur1])
      else (s, false, [])
    | none => (s, false, [])

/-- The lookup at the top of `retryJob` (lines 634-635):
`jobQueue.find(...) || (currentJob matching ? currentJob : null)`. -/
def retryFind (s : SpoolerState) (jobId : String) : Option Job :=
  match s.jobQueue.find? (fun j => j.id == jobId) with
  | some j => some j
  | none =>
    match s.currentJob with
    | some cur => if cur.id == jobId then some cur else none
    | none => none

/-- `retryJob(jobId)` (lines 631-653): if the found job has status
`failed`, reset it to `queued` with `retryCount = 0` and `error = null`,
and push it onto the queue unless it is already there; otherwise return
false with no change.  The JS mutation is in place through an aliased
reference; with locally unique job ids this is the same as updating the
queue entry by id (when found in the queue) or pushing the reset job
(when it was only the `currentJob` reference, which keeps aliasing it). -/
def retryJob (s : SpoolerState) (jobId : String) :
    SpoolerState × Bool × List SpoolEvent :=
  match retryFind s jobId with
  | none => (s, false, [])
  | some job =>
    if job.status = JobStatus.failed then
      let job1 := { job with status := JobStatus.queued
                             retryCount := 0
                             error := none }
      if s.jobQueue.any (fun j => j.id == jobId) then
        ({ s with jobQueue :=
              s.jobQueue.map (fun j => if j.id == jobId then job1 else j) },
         true, [.jobUpdated job1])
      else
        ({ s with jobQueue := s.jobQueue ++ [job1],
                  currentJob := s.currentJob.map
                    (fun c => if c.id == jobId then job1 else c) },
         true, [.jobUpdated job1])
    else (s, false, [])

/-- `getJobQueue()` (lines 589-595): a copy of the queue with the current
job, when present, unshifted to the front. -/
def getJobQueue (s : SpoolerState) : List Job :=
  match s.currentJob with
  | some cur => cur :: s.jobQueue
  | none => s.jobQueue

/-- String name of a status, as serialized into the status view. -/
def statusName : JobStatus → String
  | .queued => "queued"
  | .processing => "processing"
  | .completed => "completed"
  | .failed => "failed"
  | .cancelled => "cancelled"

/-- A JSON-like value, used to embed the object literals the code builds
for HTTP responses, so that presence and absence of fields is expressible. -/
inductive JValue
  | jNull
  | jBool (b : Bool)
  | jNum (n : Nat)
  | jStr (s : String)
  | jObj (fields : List (String × JValue))

/-- The `currentJob` field of the status object (lines 673-676). -/
def statusCurrentJob : Option Job → JValue
  | some j => .jObj [("id", .jStr j.id), ("status", .jStr (statusName j.status))]
  | none => .jNull

/-- `getStatus()` (lines 669-679), as the object literal it returns; this is
also the exact body of the `GET /api/status` response
(`res.json(this.printSpooler.getStatus())` in `APIServer`).  Note the
object has no `maxQueueSize` field. -/
def getStatus (s : SpoolerState) : List (String × JValue) :=
  [("isProcessing", .jBool s.isProcessing),
   ("queueLength", .jNum s.jobQueue.length),
   ("currentJob", statusCurrentJob s.currentJob),
   ("defaultPrinter",
      match s.defaultPrinter with
      | some p => .jStr p
      | none => .jNull)]

/-- JS property read `status.<key>`: `none` models `undefined`. -/
def statusLookup (key : String) (st : List (String × JValue)) : Option JValue :=
  (st.find? (fun kv => kv.1 == key)).map Prod.snd

/-- The JS `>=` comparison between possibly-undefined values: comparing a
number with `undefined` coerces `undefined` to `NaN`, and every comparison
with `NaN` is false. -/
def jsGE : Option JValue → Option JValue → Bool
  | some (.jNum a), some (.jNum b) => b ≤ a
  | _, _ => false

/-- A pending-job entry from the remote server, restricted to the fields
`processServerJobs` reads. -/
structure ServerJob where
  id : Option String
  pdf : Option String
  pdfBase64 : Option String
  pdfPath : Option String
  pdfUrl : Option String
  html : Option String
  url : Option String
  priority : Option JobPriority
deriving DecidableEq, Repr

/-- The `jobData` object built from a server job (main process,
lines 779-797): payload fields are copied one-for-one, priority is
defaulted to `normal`. -/
def serverJobToJobData (sj : ServerJob) : JobData :=
  { pdf := sj.pdf
    pdfBase64 := sj.pdfBase64
    pdfPath := sj.pdfPath
    pdfUrl := sj.pdfUrl
    html := sj.html
    url := sj.url
    priority := some (sj.priority.getD .normal) }

/-- `localJob.serverJobId = serverJob.id` (line 804): the job object pushed
by `addJob` is aliased in the queue (or already in the `currentJob` slot),
so the in-place assignment is an update of every active job with that local
id. -/
def setServerJobId (s : SpoolerState) (localId : String) (sid : String) :
    SpoolerState :=
  { s with
    jobQueue := s.jobQueue.map
      (fun j => if j.id == localId then { j with serverJobId := some sid } else j)
    currentJob := s.currentJob.map
      (fun j => if j.id == localId then { j with serverJobId := some sid } else j) }

/-- The `existingJobIds` set (lines 746-752): truthy `serverJobId` values of
the jobs returned by `getJobQueue()` (current job plus queue). -/
def activeServerIds (s : SpoolerState) : List String :=
  (getJobQueue s).filterMap fun j =>
    match j.serverJobId with
    | some sid => if sid == "" then none else some sid
    | none => none

/-- The `for (const serverJob of newJobs)` loop of `processServerJobs`
(lines 776-830): each iteration converts the server job, calls `addJob`
(with the next fresh local id), and on success assigns `serverJobId` on the
added job when the server id is truthy.  The only exception `addJob` throws
is the queue-full error, whose message contains `queue is full`, so the
catch block breaks out of the loop (lines 810-814); the remote status
updates and heartbeats of the other catch branch perform no spooler
mutation and are not modelled. -/
def injectLoop (fresh : Nat → String) : Nat → SpoolerState → List ServerJob → SpoolerState
  | _, s, [] => s
  | n, s, sj :: rest =>
    match addJob s (fresh n) (serverJobToJobData sj) with
    | (.ok job, s1, _) =>
      let s2 :=
        match sj.id with
        | some sid => if sid == "" then s1 else setServerJobId s1 job.id sid
        | none => s1
      injectLoop fresh (n + 1) s2 rest
    | (.error _, s1, _) => s1

/-- `processServerJobs(jobs)` (main process, lines 732-831).  The queue-full
pre-check reads `status.maxQueueSize`, a field `getStatus()` does not
return, so the JS comparison is against `undefined` and the guard never
fires (see `jsGE`).  Jobs whose truthy id is already carried by an active
job are filtered out before the loop; the filter set is computed once and
not updated while the batch is processed. -/
def processServerJobs (s : SpoolerState) (fresh : Nat → String)
    (jobs : List ServerJob) : SpoolerState :=
  let st := getStatus s
  let isQueueFull := jsGE (statusLookup "queueLength" st) (statusLookup "maxQueueSize" st)
  if isQueueFull then s
  else
    let existingIds := activeServerIds s
    let newJobs := jobs.filter fun sj =>
      match sj.id with
      | none => true
      | some sid => sid == "" || !(existingIds.contains sid)
    injectLoop fresh 0 s newJobs

/-- Number of active jobs (current plus queued) carrying the given
`serverJobId`. -/
def countServerId (s : SpoolerState) (sid : String) : Nat :=
  ((getJobQueue s).filter (fun j => j.serverJobId == some sid)).length

/-- Error outcomes of the `POST /api/print` handler: the 400 response for a
missing payload and the 500 response relaying an `addJob` throw. -/
inductive ApiError
  | invalidPayload
  | serverError (msg : String)
deriving DecidableEq, Repr

/-- The `POST /api/print` handler (`APIServer`, lines 39-77): rebuild the
job data from the request body (defaulting `priority` to `normal`), return
400 unless at least one of the six payload fields is truthy, then forward
to `addJob`, relaying its throw as a 500. -/
def apiPrintHandler (s : SpoolerState) (newId : String) (body : JobData) :
    Except ApiError (Job × SpoolerState) :=
  let d : JobData := { body with priority := some (body.priority.getD .normal) }
  if !(truthy d.pdf || truthy d.pdfBase64 || truthy d.pdfPath || truthy d.pdfUrl
        || truthy d.html || truthy d.url) then
    .error .invalidPayload
  else
    match addJob s newId d with
    | (.ok job, s1, _) => .ok (job, s1)
    | (.error msg, _, _) => .error (.serverError msg)

/-- Modelled from the spec: the number of populated payload variants of a
job data record, following the spec's variant list (raw/base64 blob, local
path, URL, legacy HTML content or URL).  Used to compare the spec's
"exactly one variant" validation contract against the handler the source
actually implements. -/
def specVariantCount (d : JobData) : Nat :=
  (if truthy d.pdf || truthy d.pdfBase64 then 1 else 0) +
  (if truthy d.pdfPath then 1 else 0) +
  (if truthy d.pdfUrl then 1 else 0) +
  (if truthy d.html || truthy d.url then 1 else 0)

/-- Filesystem-visible outcome of `executePrint` on a job with a base64
payload (`loadPDFForPrinting` lines 455-474 and 516-528, then `printPDF`
lines 535-567): the temp file named by `generateTempName` is written and
recorded in `jobData._tempPdfPath`; if the window then fails to load the
PDF, the promise rejects with no cleanup (lines 525-527); otherwise the
print callback unlinks the temp file before resolving or rejecting
(lines 549-566).  Returns the print outcome, the set of files on disk, and
the recorded `_tempPdfPath`. -/
def executePrintBase64 (tempName : String) (loadOk : Bool) (printOk : Bool)
    (fs : List String) : Except String Unit × List String × Option String :=
  -- fs.writeFileSync(pdfPath, pdfData); jobData._tempPdfPath = pdfPath
  let fs1 := tempName :: fs
  let tempPath := some tempName
  if !loadOk then
    -- did-fail-load: reject(new Error("Failed to load PDF: ...")) — the
    -- temp file is left on disk
    (.error "Failed to load PDF", fs1, tempPath)
  else
    -- printPDF callback: unlink the temp file if it exists, then settle
    let fs2 := fs1.erase tempName
    if printOk then (.ok (), fs2, tempPath)
    else (.error "Print failed", fs2, tempPath)

deriving instance DecidableEq for Except

/-- The retry-bound invariant of the data model: every active job (queued
or current) has `retryCount ≤ maxRetries`. -/
def StateInv (s : SpoolerState) : Prop :=
  ∀ j ∈ getJobQueue s, j.retryCount ≤ s.maxRetries

/-- One observable mutation of the spooler state: any of the public
operations, or one phase of the dispatch loop.  `resume` only relates
states when the loop survives (an escaped TypeError leaves the state as it
was, which is the reflexive step). -/
inductive SpoolerStep : SpoolerState → SpoolerState → Prop
  | add (s : SpoolerState) (newId : String) (d : JobData) :
      SpoolerStep s (addJob s newId d).2.1
  | enter (s s' : SpoolerState) :
      processQueueEnter s = some s' → SpoolerStep s s'
  | pop (s : SpoolerState) : SpoolerStep s (dispatchPop s).1
  | resume (s : SpoolerState) (res : PrintResult) (s' : SpoolerState)
      (evs : List SpoolEvent) :
      dispatchResume s res = .ok (s', evs) → SpoolerStep s s'
  | cancel (s : SpoolerState) (jobId : String) :
      SpoolerStep s (cancelJob s jobId).1
  | retry (s : SpoolerState) (jobId : String) :
      SpoolerStep s (retryJob s jobId).1
  | finish (s : SpoolerState) : s.jobQueue = [] →
      SpoolerStep s { s with isProcessing := false }
  | inject (s : SpoolerState) (fresh : Nat → String) (jobs : List ServerJob) :
      SpoolerStep s (processServerJobs s fresh jobs)

/-- A state is reachable when it arises from some freshly constructed
spooler (empty queue, no current job) by a sequence of operations. -/
def SpoolerReachable (s : SpoolerState) : Prop :=
  ∃ s0 : SpoolerState, s0.jobQueue = [] ∧ s0.currentJob = none ∧
    Relation.ReflTransGen SpoolerStep s0 s

/-- Modelled from the spec: the size of the `active` set, defined there as
the queued jobs plus the optional `current` in-flight job.  The source's
`addJob` has no such notion — it tests `jobQueue.length` alone — which is
exactly what claim C4 is about. -/
def activeSize (s : SpoolerState) : Nat :=
  s.jobQueue.length + (if s.currentJob.isSome then 1 else 0)

/-- A job data record with a single payload variant, used for the concrete
scenarios below. -/
def sampleData : JobData :=
  { pdf := some "blob", pdfBase64 := none, pdfPath := none, pdfUrl := none,
    html := none, url := none, priority := none }

/-- Concrete scenario for claim C1: two queued normal-priority jobs. -/
def c1s0 : SpoolerState :=
  { jobQueue := [mkJob "J1" sampleData, mkJob "J2" sampleData]
    currentJob := none
    isProcessing := false
    defaultPrinter := none
    maxRetries := 3
    maxQueueSize := 100 }

/-- C1 scenario, after the `processQueue` entry guard runs. -/
def c1s1 : SpoolerState := (processQueueEnter c1s0).getD c1s0

/-- C1 scenario, after the loop pops `J1` (the `J1` print is now awaited). -/
def c1pop := dispatchPop c1s1

/-- C1 scenario, the `cancelJob "J1"` call arriving while `J1` is in
flight. -/
def c1cancel := cancelJob c1pop.1 "J1"

/-- The pdfBase64 job of the C5 scenario. -/
def c5data : JobData :=
  { pdf := none, pdfBase64 := some "JVBERi0xLjQK", pdfPath := none,
    pdfUrl := none, html := none, url := none, priority := none }

/-- C5 scenario: the executePrint pipeline on the base64 job whose
materialized temp file then fails to load in the window. -/
def c5run := executePrintBase64 "print_job_1700000000000_abc123def.pdf" false true []

/-- The C5 job as the dispatch loop leaves it after the terminal failure. -/
def c5failedJob : Job :=
  { mkJob "J5" c5data with
      status := JobStatus.failed
      error := some "Failed to load PDF" }

/-- C5 scenario: the spooler state awaiting that print, with no retries
configured so the failure is terminal. -/
def c5state : SpoolerState :=
  { jobQueue := []
    currentJob := some { mkJob "J5" c5data with status := JobStatus.processing }
    isProcessing := true
    defaultPrinter := none
    maxRetries := 0
    maxQueueSize := 100 }

/-- Concrete reachable state used by the C2 witness: one job enqueued,
the loop entered, the job popped. -/
def c2s0 : SpoolerState :=
  { jobQueue := [], currentJob := none, isProcessing := false,
    defaultPrinter := none, maxRetries := 3, maxQueueSize := 100 }

/-- C2 witness chain, after `addJob`. -/
def c2sA : SpoolerState := (addJob c2s0 "JW" sampleData).2.1

/-- C2 witness chain, after the `processQueue` entry guard. -/
def c2sB : SpoolerState := (processQueueEnter c2sA).getD c2sA

/-- C2 witness chain, after the pop. -/
def c2sC : SpoolerState := (dispatchPop c2sB).1

/-- A normal-priority job for the C3 witness. -/
def c3jobN : Job := mkJob "N" sampleData

/-- A high-priority job for the C3 witness, enqueued after `c3jobN`. -/
def c3jobH : Job := { mkJob "H" sampleData with priority := JobPriority.high }

/-- C3 witness state: the normal job was enqueued first, the high one
second; the next pop must select the high one. -/
def c3state : SpoolerState :=
  { jobQueue := [c3jobN, c3jobH]
    currentJob := none
    isProcessing := true
    defaultPrinter := none
    maxRetries := 3
    maxQueueSize := 100 }

/-- An active job already carrying a `serverJobId`, for the C7 witness. -/
def c7activeJob : Job := { mkJob "L1" sampleData with serverJobId := some "s1" }

/-- C7 witness state: one active job carries server id `s1`. -/
def c7state : SpoolerState :=
  { jobQueue := [c7activeJob]
    currentJob := none
    isProcessing := false
    defaultPrinter := none
    maxRetries := 3
    maxQueueSize := 100 }

/-- A pending server job with id `s1`, for the C7 scenarios. -/
def c7serverJob : ServerJob :=
  { id := some "s1", pdf := some "x", pdfBase64 := none, pdfPath := none,
    pdfUrl := none, html := none, url := none, priority := none }

/-- A failed job, as the dispatch loop leaves one (terminal retryCount,
recorded error), used by the C9 witness. -/
def c9failedJob : Job :=
  { mkJob "F1" sampleData with
      status := JobStatus.failed
      retryCount := 3
      error := some "Print failed" }

/-- C9 witness state: the failed job sits in the active set. -/
def c9state : SpoolerState :=
  { jobQueue := [c9failedJob]
    currentJob := none
    isProcessing := false
    defaultPrinter := none
    maxRetries := 3
    maxQueueSize := 100 }

/-- C1: cancelling the current in-flight job returns true, marks it
cancelled and emits neither `job-completed` nor `job-failed` for it — but
the rest of the claim fails: `cancelJob` nulls `this.currentJob` while the
loop is suspended, so when the print settles the loop assigns a property of
`null`, the TypeError escapes `processQueue`, `isProcessing` is never
cleared (so the `setImmediate` kick and all later `addJob` kicks are
no-ops), and the queued job `J2` is never dispatched.  This contradicts the
source's own intent comment at line 620 ("Continue processing queue"):
a code bug, not a spec flaw. -/
theorem c1_cancel_current_job_stalls_dispatch :
    -- the pop announced only a job-updated (processing) event for J1
    c1pop.2.2 = [SpoolEvent.jobUpdated { mkJob "J1" sampleData with
                    status := JobStatus.processing }]
    -- cancel(J1) returns true and J1's final status is cancelled
    ∧ c1cancel.2.1 = true
    ∧ c1cancel.2.2 = [SpoolEvent.jobUpdated { mkJob "J1" sampleData with
                        status := JobStatus.cancelled }]
    -- the setImmediate(processQueue) scheduled by cancelJob is a no-op
    ∧ processQueueEnter c1cancel.1 = none
    -- whichever way the in-flight print settles, the loop resumption
    -- throws (so no job-completed/job-failed is ever emitted, and nothing
    -- after the throw runs)
    ∧ dispatchResume c1cancel.1 PrintResult.success =
        .error "TypeError: Cannot set properties of null (setting error)"
    ∧ dispatchResume c1cancel.1 (PrintResult.failure "print failed") =
        .error "TypeError: Cannot set properties of null (setting error)"
    -- the stalled state: still flagged as processing, J2 still queued
    ∧ c1cancel.1.isProcessing = true
    ∧ c1cancel.1.jobQueue = [mkJob "J2" sampleData] := by
  decide

/-- C4 as stated by the spec: enqueue fails exactly when the active set
(queued jobs plus the optional current job) has reached `maxQueueSize`.
False on the code: `addJob` tests `jobQueue.length` alone, so with a
current job in flight and `maxQueueSize - 1` queued jobs (an active set of
exactly `maxQueueSize`) the enqueue still succeeds.  Shown at
`maxQueueSize = 1`, an in-flight job and an empty queue. -/
theorem c4_queue_full_counterexample :
    ¬ (∀ (s : SpoolerState) (newId : String) (d : JobData),
        (addJob s newId d).1 = Except.error queueFullMsg ↔
          s.maxQueueSize ≤ activeSize s) := by
  intro h
  have h1 := (h { jobQueue := [], currentJob := some (mkJob "C" sampleData),
                  isProcessing := true, defaultPrinter := none,
                  maxRetries := 3, maxQueueSize := 1 }
              "j" sampleData).mpr (by decide)
  exact absurd h1 (by decide)

/-- C4 amended: enqueue fails with the queue-full error exactly when the
count of queued jobs alone — the current in-flight job not included — has
reached `maxQueueSize`; when `maxQueueSize ≥ 1`, an enqueue with exactly
`maxQueueSize − 1` queued jobs succeeds (and emits `job-added`) even if a
current job brings the active set to `maxQueueSize`. -/
theorem c4_queue_full_on_queued_only (s : SpoolerState) (newId : String)
    (d : JobData) :
    ((addJob s newId d).1 = Except.error queueFullMsg ↔
      s.maxQueueSize ≤ s.jobQueue.length)
    ∧ (1 ≤ s.maxQueueSize → s.jobQueue.length = s.maxQueueSize - 1 →
        addJob s newId d =
          (Except.ok (mkJob newId d),
           { s with jobQueue := s.jobQueue ++ [mkJob newId d] },
           [SpoolEvent.jobAdded (mkJob newId d)])) := by
  constructor
  · unfold addJob
    by_cases h : s.jobQueue.length ≥ s.maxQueueSize
    · simp only [ge_iff_le] at h
      simp [h]
    · simp only [ge_iff_le] at h
      simp [h]
  · intro h1 h2
    unfold addJob
    have : ¬ (s.jobQueue.length ≥ s.maxQueueSize) := by omega
    simp [this]

/-- C4 witness: at `maxQueueSize = 2` with one queued job and a current
job, the enqueue succeeds; with two queued jobs it fails. -/
theorem c4_queue_full_on_queued_only_witness :
    ((addJob { jobQueue := [mkJob "A" sampleData],
               currentJob := some (mkJob "C" sampleData),
               isProcessing := true, defaultPrinter := none,
               maxRetries := 3, maxQueueSize := 2 } "B" sampleData).1 =
        Except.error queueFullMsg ↔
      (2 : Nat) ≤ 1)
    ∧ addJob { jobQueue := [mkJob "A" sampleData],
               currentJob := some (mkJob "C" sampleData),
               isProcessing := true, defaultPrinter := none,
               maxRetries := 3, maxQueueSize := 2 } "B" sampleData =
        (Except.ok (mkJob "B" sampleData),
         { jobQueue := [mkJob "A" sampleData, mkJob "B" sampleData],
           currentJob := some (mkJob "C" sampleData),
           isProcessing := true, defaultPrinter := none,
           maxRetries := 3, maxQueueSize := 2 },
         [SpoolEvent.jobAdded (mkJob "B" sampleData)]) := by
  have h := c4_queue_full_on_queued_only
    { jobQueue := [mkJob "A" sampleData],
      currentJob := some (mkJob "C" sampleData),
      isProcessing := true, defaultPrinter := none,
      maxRetries := 3, maxQueueSize := 2 } "B" sampleData
  exact ⟨h.1, h.2 (by decide) (by decide)⟩

/-- C5: the cleanup contract is broken on the load-failure path.  A
pdfBase64 job materializes its temp file and records `_tempPdfPath`, but
when the window then fails to load the PDF, `loadPDFForPrinting` rejects
without unlinking (lines 525-527), `executePrint` relays the rejection, and
with no retries left the dispatch loop marks the job failed and drops it
from the active set — while the temp file is still on disk.  The code's own
cleanup comments (lines 550, 572) show the intent; the reject path is a
slip: a code bug. -/
theorem c5_temp_file_leak_on_load_failure :
    -- the pipeline rejects and the temp file is still on disk
    c5run.1 = Except.error "Failed to load PDF"
    ∧ "print_job_1700000000000_abc123def.pdf" ∈ c5run.2.1
    ∧ c5run.2.2 = some "print_job_1700000000000_abc123def.pdf"
    -- the loop then marks the job failed and removes it from the active
    -- set (no further path ever unlinks the file)
    ∧ dispatchResume c5state (PrintResult.failure "Failed to load PDF") =
        Except.ok
          ({ c5state with currentJob := none },
           [SpoolEvent.jobFailed c5failedJob "Failed to load PDF"])
    ∧ getJobQueue { c5state with currentJob := none } = [] := by
  decide

/-- C6 as stated: every job accepted through the print endpoint has exactly
one populated payload variant.  False on the code: the handler only checks
that at least one of the six payload fields is truthy, so a submission
carrying both a PDF blob and HTML content is accepted with two variants
populated (the spec itself records the resulting pdf-over-html precedence
as an open question). -/
theorem c6_exactly_one_variant_counterexample :
    ¬ (∀ (s : SpoolerState) (newId : String) (body : JobData) (j : Job)
          (s1 : SpoolerState),
        apiPrintHandler s newId body = .ok (j, s1) →
          specVariantCount j.data = 1) := by
  intro h
  have h1 := h { jobQueue := [], currentJob := none, isProcessing := false,
                 defaultPrinter := none, maxRetries := 3, maxQueueSize := 100 }
    "j" { pdf := some "x", pdfBase64 := none, pdfPath := none,
          pdfUrl := none, html := some "<p>hi</p>", url := none,
          priority := none }
  have h2 := h1 _ _ rfl
  exact absurd h2 (by decide)

/-- C6 amended: the `POST /api/print` handler rejects a submission with 400
(`InvalidPayload`) exactly when no payload variant is populated; any
submission with at least one variant passes validation and, when the queue
has room, is accepted unchanged (priority defaulted) — including
submissions with more than one variant.  `addJob` itself performs no
payload validation. -/
theorem c6_payload_validation (s : SpoolerState) (newId : String)
    (body : JobData) :
    (apiPrintHandler s newId body = .error ApiError.invalidPayload ↔
      specVariantCount body = 0)
    ∧ (∀ j s1, apiPrintHandler s newId body = .ok (j, s1) →
        1 ≤ specVariantCount j.data ∧
        j.data = { body with priority := some (body.priority.getD .normal) }) := by
  have hvc : ∀ d : JobData, (truthy d.pdf || truthy d.pdfBase64 || truthy d.pdfPath
      || truthy d.pdfUrl || truthy d.html || truthy d.url) = false ↔
      specVariantCount d = 0 := by
    intro d
    unfold specVariantCount
    cases hp : truthy d.pdf <;> cases hb : truthy d.pdfBase64 <;>
      cases hpa : truthy d.pdfPath <;> cases hu : truthy d.pdfUrl <;>
      cases hh : truthy d.html <;> cases hl : truthy d.url <;> simp
  have hcnt : specVariantCount
      { body with priority := some (body.priority.getD .normal) } =
      specVariantCount body := rfl
  by_cases h : (truthy body.pdf || truthy body.pdfBase64 || truthy body.pdfPath
      || truthy body.pdfUrl || truthy body.html || truthy body.url) = true
  · have hnz : specVariantCount body ≠ 0 := by
      intro h0
      rw [← hvc] at h0
      rw [h] at h0
      exact Bool.true_eq_false.mp h0
    rcases hadd : addJob s newId
        { body with priority := some (body.priority.getD .normal) } with ⟨r, s2, evs⟩
    have hh : apiPrintHandler s newId body =
        (match r with
         | .ok job => .ok (job, s2)
         | .error msg => .error (ApiError.serverError msg)) := by
      unfold apiPrintHandler
      simp only [h, Bool.not_true, Bool.false_eq_true, if_false, hadd]
      cases r <;> rfl
    cases r with
    | ok job =>
      have hjob : job = mkJob newId
          { body with priority := some (body.priority.getD .normal) } ∧ evs ≠ [] := by
        unfold addJob at hadd
        by_cases hfull : s.jobQueue.length ≥ s.maxQueueSize
        · simp [hfull] at hadd
        · simp [hfull] at hadd
          exact ⟨hadd.1.symm, by simp [hadd.2.2.symm]⟩
      constructor
      · rw [hh]
        simp [hnz]
      · intro j s1 hok
        rw [hh] at hok
        simp only [Except.ok.injEq, Prod.mk.injEq] at hok
        refine ⟨?_, ?_⟩
        · rw [← hok.1, hjob.1]
          show 1 ≤ specVariantCount
            { body with priority := some (body.priority.getD .normal) }
          rw [hcnt]
          omega
        · rw [← hok.1, hjob.1]
          rfl
    | error msg =>
      constructor
      · rw [hh]
        constructor
        · intro hc
          simp at hc
        · intro hc
          exact absurd hc hnz
      · intro j s1 hok
        rw [hh] at hok
        simp at hok
  · rw [Bool.not_eq_true] at h
    have h0 : specVariantCount body = 0 := (hvc body).mp h
    have hh : apiPrintHandler s newId body = .error ApiError.invalidPayload := by
      unfold apiPrintHandler
      simp [h]
    constructor
    · rw [hh]
      simp [h0]
    · intro j s1 hok
      rw [hh] at hok
      simp at hok

/-- C6 witness: a body with only an HTML payload is accepted with at least
one variant populated, and a body with no payload at all is rejected as
invalid. -/
theorem c6_payload_validation_witness :
    (1 ≤ specVariantCount (mkJob "j"
        { pdf := none, pdfBase64 := none, pdfPath := none, pdfUrl := none,
          html := some "<p>hi</p>", url := none,
          priority := some JobPriority.normal }).data)
    ∧ (apiPrintHandler c2s0 "k"
        { pdf := none, pdfBase64 := none, pdfPath := none, pdfUrl := none,
          html := none, url := none, priority := none } =
          .error ApiError.invalidPayload ↔
        specVariantCount
          { pdf := none, pdfBase64 := none, pdfPath := none, pdfUrl := none,
            html := none, url := none, priority := none } = 0) := by
  refine ⟨?_, (c6_payload_validation c2s0 "k" _).1⟩
  have h := (c6_payload_validation c2s0 "j"
      { pdf := none, pdfBase64 := none, pdfPath := none, pdfUrl := none,
        html := some "<p>hi</p>", url := none, priority := none }).2
      (mkJob "j" { pdf := none, pdfBase64 := none, pdfPath := none,
                   pdfUrl := none, html := some "<p>hi</p>", url := none,
                   priority := some JobPriority.normal })
      { c2s0 with jobQueue := [mkJob "j"
          { pdf := none, pdfBase64 := none, pdfPath := none, pdfUrl := none,
            html := some "<p>hi</p>", url := none,
            priority := some JobPriority.normal }] } rfl
  exact h.1

/-- C8: the status view misses `maxQueueSize`.  `getStatus()` serializes
only `isProcessing`, `queueLength`, `currentJob` and `defaultPrinter`, for
every spooler state, and `GET /api/status` returns that object verbatim.
The code's own consumer `processServerJobs` reads `status.maxQueueSize`,
so its queue-full pre-check compares against `undefined` and never fires:
the code contradicts its own use site — a code bug. -/
theorem c8_status_view_misses_maxQueueSize (s : SpoolerState) :
    (getStatus s).map Prod.fst =
      ["isProcessing", "queueLength", "currentJob", "defaultPrinter"]
    ∧ "maxQueueSize" ∉ (getStatus s).map Prod.fst
    ∧ statusLookup "maxQueueSize" (getStatus s) = none
    ∧ jsGE (statusLookup "queueLength" (getStatus s))
        (statusLookup "maxQueueSize" (getStatus s)) = false := by
  refine ⟨rfl, ?_, rfl, rfl⟩
  intro hmem
  rw [show (getStatus s).map Prod.fst =
      ["isProcessing", "queueLength", "currentJob", "defaultPrinter"] from rfl] at hmem
  simp at hmem

/-- C9: `retryJob` resets a `failed` job found in the active set to
`queued` with `retryCount = 0` and `error` cleared, re-enters it into the
queue, and returns true; for a found job that is not `failed`, and for an
id with no matching job in the active set (in particular any job that
reached a terminal state and was dropped from both the queue and
`currentJob`), it is a no-op returning false. -/
theorem c9_retry_resets_failed_jobs_only (s : SpoolerState) (jobId : String) :
    (∀ j, retryFind s jobId = some j → j.status = JobStatus.failed →
      (retryJob s jobId).2.1 = true ∧
      ∃ j' ∈ (retryJob s jobId).1.jobQueue,
        j'.id = j.id ∧ j'.status = JobStatus.queued ∧ j'.retryCount = 0 ∧
        j'.error = none)
    ∧ (∀ j, retryFind s jobId = some j → j.status ≠ JobStatus.failed →
        retryJob s jobId = (s, false, []))
    ∧ (retryFind s jobId = none → retryJob s jobId = (s, false, [])) := by
  refine ⟨?_, ?_, ?_⟩
  · intro j hf hfail
    simp only [retryJob, hf, hfail, if_true]
    by_cases hq : s.jobQueue.any (fun k => k.id == jobId)
    · simp only [hq, if_true]
      refine ⟨by trivial, ?_⟩
      obtain ⟨k, hk, hkid⟩ := List.any_eq_true.mp hq
      refine ⟨{ j with status := JobStatus.queued, retryCount := 0, error := none },
        List.mem_map.mpr ⟨k, hk, by simp [hkid]⟩, rfl, rfl, rfl, rfl⟩
    · rw [Bool.not_eq_true] at hq
      simp only [hq, Bool.false_eq_true, if_false]
      refine ⟨by trivial, ?_⟩
      exact ⟨{ j with status := JobStatus.queued, retryCount := 0, error := none },
         List.mem_append.mpr (Or.inr (List.mem_singleton.mpr rfl)),
         rfl, rfl, rfl, rfl⟩
  · intro j hf hne
    simp only [retryJob, hf]
    rw [if_neg hne]
  · intro hf
    simp only [retryJob, hf]

/-- C9 witness: retrying the failed job `F1` succeeds and re-queues it
reset; retrying an id that is not in the active set returns false. -/
theorem c9_retry_resets_failed_jobs_only_witness :
    ((retryJob c9state "F1").2.1 = true ∧
      ∃ j' ∈ (retryJob c9state "F1").1.jobQueue,
        j'.id = c9failedJob.id ∧ j'.status = JobStatus.queued ∧
        j'.retryCount = 0 ∧ j'.error = none)
    ∧ retryJob c9state "GONE" = (c9state, false, []) :=
  ⟨(c9_retry_resets_failed_jobs_only c9state "F1").1 c9failedJob (by decide)
      (by decide),
   (c9_retry_resets_failed_jobs_only c9state "GONE").2.2 (by decide)⟩

/-- Helper: the comparator relation is transitive. -/
theorem jobLE_trans (a b c : Job) :
    jobLE a b = true → jobLE b c = true → jobLE a c = true := by
  simp only [jobLE, decide_eq_true_eq]
  omega

/-- Helper: the comparator relation is total. -/
theorem jobLE_total (a b : Job) : (jobLE a b || jobLE b a) = true := by
  simp only [jobLE, Bool.or_eq_true, decide_eq_true_eq]
  omega

/-- Helper: stable insertion permutes. -/
theorem insertJob_perm (x : Job) (l : List Job) :
    (insertJob x l).Perm (x :: l) := by
  induction l with
  | nil => exact List.Perm.refl _
  | cons y ys ih =>
    unfold insertJob
    by_cases h : priorityOrder x.priority < priorityOrder y.priority
    · simp only [h, if_true]
      exact (ih.cons y).trans (List.Perm.swap x y ys)
    · simp only [h, if_false]
      exact List.Perm.refl _

/-- Helper: `sortQueue` permutes the queue. -/
theorem sortQueue_perm (q : List Job) : (sortQueue q).Perm q := by
  induction q with
  | nil => exact List.Perm.refl _
  | cons x xs ih =>
    exact (insertJob_perm x (sortQueue xs)).trans (ih.cons x)

/-- Helper: stable insertion preserves descending sortedness. -/
theorem insertJob_pairwise (x : Job) (l : List Job)
    (hl : List.Pairwise (fun a b => jobLE a b = true) l) :
    List.Pairwise (fun a b => jobLE a b = true) (insertJob x l) := by
  induction l with
  | nil => simp [insertJob]
  | cons y ys ih =>
    rcases List.pairwise_cons.mp hl with ⟨hy, hys⟩
    unfold insertJob
    by_cases h : priorityOrder x.priority < priorityOrder y.priority
    · simp only [h, if_true]
      refine List.pairwise_cons.mpr ⟨?_, ih hys⟩
      intro z hz
      rcases List.mem_cons.mp ((insertJob_perm x ys).mem_iff.mp hz) with hzx | hzy
      · subst hzx
        simp only [jobLE, decide_eq_true_eq]
        omega
      · exact hy z hzy
    · simp only [h, if_false]
      refine List.pairwise_cons.mpr ⟨?_, hl⟩
      intro z hz
      rcases List.mem_cons.mp hz with hzy | hzy
      · subst hzy
        simp only [jobLE, decide_eq_true_eq]
        omega
      · have := hy z hzy
        simp only [jobLE, decide_eq_true_eq] at this ⊢
        omega

/-- Helper: `sortQueue` sorts by descending priority rank. -/
theorem sortQueue_pairwise (q : List Job) :
    List.Pairwise (fun a b => jobLE a b = true) (sortQueue q) := by
  induction q with
  | nil => simp [sortQueue]
  | cons x xs ih => exact insertJob_pairwise x (sortQueue xs) ih

/-- Helper: stable insertion preserves each rank sub-sequence. -/
theorem rankFilter_insertJob (r : Nat) (x : Job) (l : List Job) :
    rankFilter r (insertJob x l) = rankFilter r (x :: l) := by
  induction l with
  | nil => rfl
  | cons y ys ih =>
    unfold insertJob
    by_cases h : priorityOrder x.priority < priorityOrder y.priority
    · simp only [h, if_true]
      by_cases hx : (priorityOrder x.priority == r) = true
      · have hxr : priorityOrder x.priority = r := beq_iff_eq.mp hx
        have hy : (priorityOrder y.priority == r) = false := by
          rw [beq_eq_false_iff_ne]
          omega
        simp only [rankFilter, List.filter_cons, hx, hy, if_true, if_false,
          Bool.false_eq_true] at ih ⊢
        exact ih
      · rw [Bool.not_eq_true] at hx
        simp only [rankFilter, List.filter_cons, hx, Bool.false_eq_true,
          if_false] at ih ⊢
        by_cases hy : (priorityOrder y.priority == r) = true
        · simp only [hy, if_true]
          rw [ih]
        · rw [Bool.not_eq_true] at hy
          simp only [hy, Bool.false_eq_true, if_false]
          exact ih
    · simp only [h, if_false]

/-- Helper: `sortQueue` preserves each rank sub-sequence. -/
theorem rankFilter_sortQueue (r : Nat) (q : List Job) :
    rankFilter r (sortQueue q) = rankFilter r q := by
  induction q with
  | nil => rfl
  | cons x xs ih =>
    show rankFilter r (insertJob x (sortQueue xs)) = _
    rw [rankFilter_insertJob]
    simp only [rankFilter, List.filter_cons] at ih ⊢
    by_cases hx : (priorityOrder x.priority == r) = true
    · simp only [hx, if_true]
      rw [ih]
    · rw [Bool.not_eq_true] at hx
      simp only [hx, Bool.false_eq_true, if_false]
      exact ih

/-- Helper: a list sorted by descending rank is the concatenation of its
rank-3, rank-2 and rank-1 sub-sequences. -/
theorem sorted_rank_decomposition (l : List Job)
    (hl : List.Pairwise (fun a b => jobLE a b = true) l) :
    l = rankFilter 3 l ++ rankFilter 2 l ++ rankFilter 1 l := by
  induction l with
  | nil => rfl
  | cons x xs ih =>
    rcases List.pairwise_cons.mp hl with ⟨hx, hxs⟩
    have ihx := ih hxs
    have hbound : ∀ y ∈ xs, priorityOrder y.priority ≤ priorityOrder x.priority := by
      intro y hy
      have := hx y hy
      simp only [jobLE, decide_eq_true_eq] at this
      exact this
    cases hp : x.priority
    case high =>
      have h3 : (priorityOrder x.priority == 3) = true := by
        rw [hp]; rfl
      have h2 : (priorityOrder x.priority == 2) = false := by
        rw [hp]; rfl
      have h1 : (priorityOrder x.priority == 1) = false := by
        rw [hp]; rfl
      simp only [rankFilter, List.filter_cons, h3, h2, h1, if_true,
        Bool.false_eq_true, if_false]
      simp only [rankFilter] at ihx
      rw [List.cons_append, List.cons_append]
      exact congrArg (x :: ·) ihx
    case normal =>
      have h3 : rankFilter 3 xs = [] := by
        rw [rankFilter, List.filter_eq_nil_iff]
        intro y hy
        have hb := hbound y hy
        rw [hp] at hb
        simp only [beq_iff_eq]
        intro hcontra
        cases hyp : y.priority <;> rw [hyp] at hb hcontra <;>
          simp [priorityOrder] at hb hcontra
      have hx3 : (priorityOrder x.priority == 3) = false := by
        rw [hp]; rfl
      have hx2 : (priorityOrder x.priority == 2) = true := by
        rw [hp]; rfl
      have hx1 : (priorityOrder x.priority == 1) = false := by
        rw [hp]; rfl
      simp only [rankFilter, List.filter_cons, hx3, hx2, hx1, if_true,
        Bool.false_eq_true, if_false]
      simp only [rankFilter] at ihx h3
      rw [h3] at ihx ⊢
      simp only [List.nil_append] at ihx ⊢
      rw [List.cons_append]
      exact congrArg (x :: ·) ihx
    case low =>
      have h3 : rankFilter 3 xs = [] := by
        rw [rankFilter, List.filter_eq_nil_iff]
        intro y hy
        have hb := hbound y hy
        rw [hp] at hb
        simp only [beq_iff_eq]
        intro hcontra
        cases hyp : y.priority <;> rw [hyp] at hb hcontra <;>
          simp [priorityOrder] at hb hcontra
      have h2 : rankFilter 2 xs = [] := by
        rw [rankFilter, List.filter_eq_nil_iff]
        intro y hy
        have hb := hbound y hy
        rw [hp] at hb
        simp only [beq_iff_eq]
        intro hcontra
        cases hyp : y.priority <;> rw [hyp] at hb hcontra <;>
          simp [priorityOrder] at hb hcontra
      have hx3 : (priorityOrder x.priority == 3) = false := by
        rw [hp]; rfl
      have hx2 : (priorityOrder x.priority == 2) = false := by
        rw [hp]; rfl
      have hx1 : (priorityOrder x.priority == 1) = true := by
        rw [hp]; rfl
      simp only [rankFilter, List.filter_cons, hx3, hx2, hx1, if_true,
        Bool.false_eq_true, if_false]
      simp only [rankFilter] at ihx h3 h2
      rw [h3, h2] at ihx
      simp only [List.nil_append] at ihx
      rw [h3, h2]
      simp only [List.nil_append]
      exact congrArg (x :: ·) ihx

/-- Helper: the stable merge sort also preserves each rank sub-sequence
(this is exactly its stability). -/
theorem rankFilter_mergeSort (r : Nat) (q : List Job) :
    rankFilter r (q.mergeSort jobLE) = rankFilter r q := by
  have hsub : (rankFilter r q).Sublist (q.mergeSort jobLE) := by
    apply List.sublist_mergeSort jobLE_trans jobLE_total
    · apply List.pairwise_of_forall_mem_list
      intro a ha b hb
      simp only [rankFilter, List.mem_filter, beq_iff_eq] at ha hb
      obtain ⟨-, ha2⟩ := ha
      obtain ⟨-, hb2⟩ := hb
      simp only [jobLE, decide_eq_true_eq]
      omega
    · exact List.filter_sublist q
  have hsub2 : (rankFilter r q).Sublist (rankFilter r (q.mergeSort jobLE)) := by
    have hself : List.filter (fun j => priorityOrder j.priority == r)
        (rankFilter r q) = rankFilter r q := by
      rw [List.filter_eq_self]
      intro a ha
      simp only [rankFilter, List.mem_filter] at ha
      exact ha.2
    have h := hsub.filter (fun j => priorityOrder j.priority == r)
    rw [hself] at h
    exact h
  have hlen : (rankFilter r (q.mergeSort jobLE)).length = (rankFilter r q).length := by
    have h := (List.mergeSort_perm q jobLE).filter
      (fun j => priorityOrder j.priority == r)
    exact h.length_eq
  exact (hsub2.eq_of_length hlen.symm).symm

/-- Helper: `sortQueue` is extensionally the library's stable merge sort
under the source's comparator, so nothing depends on the choice of stable
sorting algorithm in the embedding. -/
theorem sortQueue_eq_mergeSort (q : List Job) :
    sortQueue q = q.mergeSort jobLE := by
  rw [sorted_rank_decomposition (sortQueue q) (sortQueue_pairwise q),
      sorted_rank_decomposition (q.mergeSort jobLE)
        (List.sorted_mergeSort jobLE_trans jobLE_total q),
      rankFilter_sortQueue, rankFilter_sortQueue, rankFilter_sortQueue,
      rankFilter_mergeSort, rankFilter_mergeSort, rankFilter_mergeSort]

/-- Helper: the sorted queue is the rank buckets in queue order. -/
theorem sortQueue_eq_filters (q : List Job) :
    sortQueue q = rankFilter 3 q ++ rankFilter 2 q ++ rankFilter 1 q := by
  rw [sorted_rank_decomposition (sortQueue q) (sortQueue_pairwise q),
      rankFilter_sortQueue, rankFilter_sortQueue, rankFilter_sortQueue]

/-- Helper: the head of the sorted queue heads its own rank bucket — the
earlier buckets are empty. -/
theorem sortQueue_head_first_in_rank (q : List Job) (j : Job) (rest : List Job)
    (hsort : sortQueue q = j :: rest) :
    (rankFilter (priorityOrder j.priority) q).head? = some j := by
  have hfil := sortQueue_eq_filters q
  rw [hsort] at hfil
  have hmemrank : ∀ r (a : Job) t, rankFilter r q = a :: t →
      priorityOrder a.priority = r := by
    intro r a t h
    have ha : a ∈ rankFilter r q := by
      rw [h]
      exact List.mem_cons_self _ _
    simp only [rankFilter, List.mem_filter, beq_iff_eq] at ha
    exact ha.2
  rcases hF3 : rankFilter 3 q with _ | ⟨a3, t3⟩
  · rcases hF2 : rankFilter 2 q with _ | ⟨a2, t2⟩
    · rw [hF3, hF2] at hfil
      simp only [List.nil_append] at hfil
      have hj : priorityOrder j.priority = 1 :=
        hmemrank 1 j rest hfil.symm
      rw [hj, ← hfil]
      rfl
    · rw [hF3, hF2] at hfil
      simp only [List.nil_append, List.cons_append] at hfil
      have ha2 : a2 = j := ((List.cons.injEq a2 _ j rest).mp hfil.symm).1
      have hj : priorityOrder j.priority = 2 := by
        rw [← ha2]
        exact hmemrank 2 a2 t2 hF2
      rw [hj, hF2, ha2]
      rfl
  · rw [hF3] at hfil
    simp only [List.cons_append, List.append_assoc] at hfil
    have ha3 : a3 = j := ((List.cons.injEq a3 _ j rest).mp hfil.symm).1
    have hj : priorityOrder j.priority = 3 := by
      rw [← ha3]
      exact hmemrank 3 a3 t3 hF3
    rw [hj, hF3, ha3]
    rfl

/-- C3: on every pop of the dispatch loop, the selected job — the head of
the stably sorted queue, which the pop moves into `currentJob` with status
`processing` — is of maximal priority among the queued jobs under
high > normal > low, and among queued jobs of equal priority the one
earliest in queue order is selected (queue order is enqueue order within a
priority class, since `addJob` appends and the failure-retry re-queue at
the head re-inserts the job that was just at the front of its class); in
particular, whenever any high-priority job is queued, the selected job is
high-priority, so a high job enqueued while a normal job waits overtakes
it. -/
theorem c3_pop_selects_highest_priority_fifo (s : SpoolerState) (j : Job)
    (rest : List Job) (hsort : sortQueue s.jobQueue = j :: rest) :
    (dispatchPop s).2.1 = some { j with status := JobStatus.processing }
    ∧ j ∈ s.jobQueue
    ∧ (∀ k ∈ s.jobQueue, priorityOrder k.priority ≤ priorityOrder j.priority)
    ∧ (∀ pre k post, s.jobQueue = pre ++ k :: post →
        k.priority = j.priority → k ≠ j → j ∈ pre)
    ∧ ((∃ k ∈ s.jobQueue, k.priority = JobPriority.high) →
        j.priority = JobPriority.high) := by
  have hperm := sortQueue_perm s.jobQueue
  have hmemj : j ∈ s.jobQueue := by
    apply hperm.mem_iff.mp
    rw [hsort]
    exact List.mem_cons_self _ _
  have hsorted := sortQueue_pairwise s.jobQueue
  rw [hsort] at hsorted
  have hmax : ∀ k ∈ s.jobQueue,
      priorityOrder k.priority ≤ priorityOrder j.priority := by
    intro k hk
    have hk' : k ∈ j :: rest := by
      rw [← hsort]
      exact hperm.mem_iff.mpr hk
    rcases List.mem_cons.mp hk' with hkj | hkr
    · subst hkj
      exact Nat.le_refl _
    · have hle := (List.pairwise_cons.mp hsorted).1 k hkr
      simp only [jobLE, decide_eq_true_eq] at hle
      exact hle
  refine ⟨?_, hmemj, hmax, ?_, ?_⟩
  · simp only [dispatchPop, hsort]
  · intro pre k post heq hkp hkj
    have hhead := sortQueue_head_first_in_rank s.jobQueue j rest hsort
    have hkr : (priorityOrder k.priority == priorityOrder j.priority) = true := by
      rw [hkp]
      exact beq_self_eq_true _
    rw [heq] at hhead
    rw [rankFilter, List.filter_append, List.filter_cons, if_pos hkr] at hhead
    rcases hfp : List.filter
        (fun jb => priorityOrder jb.priority == priorityOrder j.priority) pre
      with _ | ⟨b, bs⟩
    · rw [hfp] at hhead
      simp only [List.nil_append, List.head?_cons, Option.some.injEq] at hhead
      exact absurd hhead hkj
    · rw [hfp] at hhead
      simp only [List.cons_append, List.head?_cons, Option.some.injEq] at hhead
      have hbmem : b ∈ List.filter
          (fun jb => priorityOrder jb.priority == priorityOrder j.priority) pre := by
        rw [hfp]
        exact List.mem_cons_self _ _
      rw [hhead] at hbmem
      exact List.mem_of_mem_filter hbmem
  · rintro ⟨k, hk, hkh⟩
    have hle := hmax k hk
    rw [hkh] at hle
    cases hjp : j.priority
    case high => rfl
    case normal =>
      rw [hjp] at hle
      simp [priorityOrder] at hle
    case low =>
      rw [hjp] at hle
      simp [priorityOrder] at hle

/-- C3 witness: with a normal job enqueued first and a high job second,
the next pop selects the high job. -/
theorem c3_pop_selects_highest_priority_fifo_witness :
    (dispatchPop c3state).2.1 = some { c3jobH with status := JobStatus.processing }
    ∧ c3jobH ∈ c3state.jobQueue
    ∧ (∀ k ∈ c3state.jobQueue,
        priorityOrder k.priority ≤ priorityOrder c3jobH.priority)
    ∧ (∀ pre k post, c3state.jobQueue = pre ++ k :: post →
        k.priority = c3jobH.priority → k ≠ c3jobH → c3jobH ∈ pre)
    ∧ ((∃ k ∈ c3state.jobQueue, k.priority = JobPriority.high) →
        c3jobH.priority = JobPriority.high) :=
  c3_pop_selects_highest_priority_fifo c3state c3jobH [c3jobN] (by decide)

/-- Helper: membership in the active-set view. -/
theorem mem_getJobQueue (s : SpoolerState) (j : Job) :
    j ∈ getJobQueue s ↔ s.currentJob = some j ∨ j ∈ s.jobQueue := by
  unfold getJobQueue
  cases hc : s.currentJob with
  | none => simp
  | some cur =>
    simp only [List.mem_cons, Option.some.injEq]
    constructor
    · rintro (h | h)
      · exact Or.inl h.symm
      · exact Or.inr h
    · rintro (h | h)
      · exact Or.inl h.symm
      · exact Or.inr h

/-- Helper: `addJob` preserves the retry-bound invariant (new jobs start at
`retryCount = 0`). -/
theorem stateInv_addJob (s : SpoolerState) (newId : String) (d : JobData)
    (h : StateInv s) : StateInv (addJob s newId d).2.1 := by
  unfold addJob
  by_cases hfull : s.jobQueue.length ≥ s.maxQueueSize
  · simpa [hfull] using h
  · simp only [hfull, if_false]
    intro j hj
    rw [mem_getJobQueue] at hj
    rcases hj with hc | hq
    · exact h j ((mem_getJobQueue s j).mpr (Or.inl hc))
    · rcases List.mem_append.mp hq with hq' | hnew
      · exact h j ((mem_getJobQueue s j).mpr (Or.inr hq'))
      · rw [List.mem_singleton] at hnew
        subst hnew
        exact Nat.zero_le _

/-- Helper: the `processQueue` entry guard preserves the invariant. -/
theorem stateInv_enter (s s' : SpoolerState)
    (hs : processQueueEnter s = some s') (h : StateInv s) : StateInv s' := by
  unfold processQueueEnter at hs
  by_cases hg : (s.isProcessing || s.jobQueue.isEmpty) = true
  · rw [if_pos hg] at hs
    exact absurd hs (by simp)
  · rw [if_neg hg] at hs
    simp only [Option.some.injEq] at hs
    subst hs
    intro j hj
    exact h j hj

/-- Helper: the dispatch pop preserves the invariant (it only moves a job
and flips its status). -/
theorem stateInv_pop (s : SpoolerState) (h : StateInv s) :
    StateInv (dispatchPop s).1 := by
  unfold dispatchPop
  rcases hsort : sortQueue s.jobQueue with _ | ⟨j, rest⟩
  · exact h
  · have hperm := sortQueue_perm s.jobQueue
    rw [hsort] at hperm
    intro k hk
    rw [mem_getJobQueue] at hk
    rcases hk with hc | hq
    · simp only [Option.some.injEq] at hc
      have hjq : j ∈ s.jobQueue := hperm.mem_iff.mp (List.mem_cons_self _ _)
      have := h j ((mem_getJobQueue s j).mpr (Or.inr hjq))
      rw [← hc]
      exact this
    · have hkq : k ∈ s.jobQueue :=
        hperm.mem_iff.mp (List.mem_cons_of_mem _ hq)
      exact h k ((mem_getJobQueue s k).mpr (Or.inr hkq))

/-- Helper: a surviving catch block preserves the invariant: the retry
branch only increments `retryCount` when it is strictly below
`maxRetries`. -/
theorem stateInv_catch (s : SpoolerState) (msg : String)
    (s' : SpoolerState) (evs : List SpoolEvent)
    (hs : dispatchCatch s msg = .ok (s', evs)) (h : StateInv s) :
    StateInv s' := by
  have hqueue : ∀ k ∈ s.jobQueue, k.retryCount ≤ s.maxRetries := by
    intro k hk
    exact h k ((mem_getJobQueue s k).mpr (Or.inr hk))
  unfold dispatchCatch at hs
  cases hc : s.currentJob with
  | none =>
    rw [hc] at hs
    simp at hs
  | some cur =>
    rw [hc] at hs
    simp only [] at hs
    by_cases hrc : cur.retryCount < s.maxRetries
    · rw [if_pos hrc] at hs
      simp only [Except.ok.injEq, Prod.mk.injEq] at hs
      obtain ⟨hs1, -⟩ := hs
      subst hs1
      intro j hj
      rw [mem_getJobQueue] at hj
      rcases hj with hcj | hq
      · simp at hcj
      · rcases List.mem_cons.mp hq with hj1 | hq'
        · subst hj1
          simp only []
          omega
        · exact hqueue j hq'
    · rw [if_neg hrc] at hs
      simp only [Except.ok.injEq, Prod.mk.injEq] at hs
      obtain ⟨hs1, -⟩ := hs
      subst hs1
      intro j hj
      rw [mem_getJobQueue] at hj
      rcases hj with hcj | hq
      · simp at hcj
      · exact hqueue j hq

/-- Helper: a surviving resumption of the dispatch loop preserves the
invariant. -/
theorem stateInv_resume (s : SpoolerState) (res : PrintResult)
    (s' : SpoolerState) (evs : List SpoolEvent)
    (hs : dispatchResume s res = .ok (s', evs)) (h : StateInv s) :
    StateInv s' := by
  have hqueue : ∀ k ∈ s.jobQueue, k.retryCount ≤ s.maxRetries := by
    intro k hk
    exact h k ((mem_getJobQueue s k).mpr (Or.inr hk))
  unfold dispatchResume at hs
  cases res with
  | failure msg => exact stateInv_catch s msg s' evs hs h
  | success =>
    cases hc : s.currentJob with
    | none =>
      rw [hc] at hs
      simp only [] at hs
      exact stateInv_catch s _ s' evs hs h
    | some cur =>
      rw [hc] at hs
      simp only [Except.ok.injEq, Prod.mk.injEq] at hs
      obtain ⟨hs1, -⟩ := hs
      subst hs1
      intro j hj
      rw [mem_getJobQueue] at hj
      rcases hj with hcj | hq
      · simp at hcj
      · exact hqueue j hq

/-- Helper: elements surviving `findIndex` + `splice` were in the list. -/
theorem removeFirstById_mem (l : List Job) (jobId : String) (j : Job)
    (rest : List Job) (h : removeFirstById l jobId = some (j, rest)) :
    ∀ x ∈ rest, x ∈ l := by
  induction l generalizing rest with
  | nil => simp [removeFirstById] at h
  | cons y ys ih =>
    unfold removeFirstById at h
    by_cases hy : (y.id == jobId) = true
    · rw [if_pos hy] at h
      simp only [Option.some.injEq, Prod.mk.injEq] at h
      obtain ⟨-, h2⟩ := h
      subst h2
      intro x hx
      exact List.mem_cons_of_mem _ hx
    · rw [if_neg hy] at h
      cases hrec : removeFirstById ys jobId with
      | none =>
        rw [hrec] at h
        simp at h
      | some p =>
        rcases p with ⟨k, rest'⟩
        rw [hrec] at h
        simp only [Option.some.injEq, Prod.mk.injEq] at h
        obtain ⟨h1, h2⟩ := h
        subst h1
        subst h2
        intro x hx
        rcases List.mem_cons.mp hx with hxy | hxr
        · subst hxy
          exact List.mem_cons_self _ _
        · exact List.mem_cons_of_mem _ (ih rest' hrec x hxr)

/-- Helper: `cancelJob` preserves the invariant (it only removes). -/
theorem stateInv_cancel (s : SpoolerState) (jobId : String) (h : StateInv s) :
    StateInv (cancelJob s jobId).1 := by
  unfold cancelJob
  cases hrem : removeFirstById s.jobQueue jobId with
  | some p =>
    rcases p with ⟨job, rest⟩
    intro j hj
    rw [mem_getJobQueue] at hj
    rcases hj with hc | hq
    · exact h j ((mem_getJobQueue s j).mpr (Or.inl hc))
    · exact h j ((mem_getJobQueue s j).mpr
        (Or.inr (removeFirstById_mem s.jobQueue jobId job rest hrem j hq)))
  | none =>
    cases hc : s.currentJob with
    | some cur =>
      by_cases hid : (cur.id == jobId) = true
      · simp only []
        rw [if_pos hid]
        intro j hj
        rw [mem_getJobQueue] at hj
        rcases hj with hcj | hq
        · simp at hcj
        · exact h j ((mem_getJobQueue s j).mpr (Or.inr hq))
      · simp only []
        rw [if_neg hid]
        exact h
    | none => exact h

/-- Helper: `retryJob` preserves the invariant (the reset job re-enters at
`retryCount = 0`). -/
theorem stateInv_retry (s : SpoolerState) (jobId : String) (h : StateInv s) :
    StateInv (retryJob s jobId).1 := by
  unfold retryJob
  cases hf : retryFind s jobId with
  | none => exact h
  | some job =>
    simp only []
    by_cases hst : job.status = JobStatus.failed
    · rw [if_pos hst]
      by_cases hq : s.jobQueue.any (fun k => k.id == jobId) = true
      · simp only [hq, if_true]
        intro j hj
        rw [mem_getJobQueue] at hj
        rcases hj with hc | hmem
        · exact h j ((mem_getJobQueue s j).mpr (Or.inl hc))
        · rcases List.mem_map.mp hmem with ⟨k, hk, hkj⟩
          by_cases hkid : (k.id == jobId) = true
          · rw [if_pos hkid] at hkj
            rw [← hkj]
            exact Nat.zero_le _
          · rw [if_neg hkid] at hkj
            rw [← hkj]
            exact h k ((mem_getJobQueue s k).mpr (Or.inr hk))
      · rw [Bool.not_eq_true] at hq
        simp only [hq, Bool.false_eq_true, if_false]
        intro j hj
        rw [mem_getJobQueue] at hj
        rcases hj with hc | hmem
        · rcases Option.map_eq_some'.mp hc with ⟨c, hcs, hcf⟩
          by_cases hcid : (c.id == jobId) = true
          · rw [if_pos hcid] at hcf
            rw [← hcf]
            exact Nat.zero_le _
          · rw [if_neg hcid] at hcf
            rw [← hcf]
            exact h c ((mem_getJobQueue s c).mpr (Or.inl hcs))
        · rcases List.mem_append.mp hmem with hq' | hnew
          · exact h j ((mem_getJobQueue s j).mpr (Or.inr hq'))
          · rw [List.mem_singleton] at hnew
            subst hnew
            exact Nat.zero_le _
    · rw [if_neg hst]
      exact h

/-- Helper: recording a `serverJobId` does not change any `retryCount`. -/
theorem stateInv_setServerJobId (s : SpoolerState) (lid sid : String)
    (h : StateInv s) : StateInv (setServerJobId s lid sid) := by
  intro j hj
  rw [mem_getJobQueue] at hj
  rcases hj with hc | hq
  · rcases Option.map_eq_some'.mp hc with ⟨c, hcs, hcf⟩
    by_cases hcid : (c.id == lid) = true
    · rw [if_pos hcid] at hcf
      rw [← hcf]
      exact h c ((mem_getJobQueue s c).mpr (Or.inl hcs))
    · rw [if_neg hcid] at hcf
      rw [← hcf]
      exact h c ((mem_getJobQueue s c).mpr (Or.inl hcs))
  · rcases List.mem_map.mp hq with ⟨k, hk, hkj⟩
    by_cases hkid : (k.id == lid) = true
    · rw [if_pos hkid] at hkj
      rw [← hkj]
      exact h k ((mem_getJobQueue s k).mpr (Or.inr hk))
    · rw [if_neg hkid] at hkj
      rw [← hkj]
      exact h k ((mem_getJobQueue s k).mpr (Or.inr hk))

/-- Helper: the server-injection loop preserves the invariant. -/
theorem stateInv_injectLoop (fresh : Nat → String) (jobs : List ServerJob) :
    ∀ (n : Nat) (s : SpoolerState), StateInv s →
      StateInv (injectLoop fresh n s jobs) := by
  induction jobs with
  | nil =>
    intro n s h
    exact h
  | cons sj restJobs ih =>
    intro n s h
    unfold injectLoop
    rcases hadd : addJob s (fresh n) (serverJobToJobData sj) with ⟨r, s1, evs⟩
    have h1 : StateInv s1 := by
      have h' := stateInv_addJob s (fresh n) (serverJobToJobData sj) h
      rw [hadd] at h'
      exact h'
    cases r with
    | ok job =>
      cases hid : sj.id with
      | none => exact ih (n + 1) s1 h1
      | some sid =>
        by_cases hsid : (sid == "") = true
        · simp only [hsid, if_true]
          exact ih (n + 1) s1 h1
        · simp only [hsid, Bool.false_eq_true, if_false]
          exact ih (n + 1) (setServerJobId s1 job.id sid)
            (stateInv_setServerJobId s1 job.id sid h1)
    | error msg => exact h1

/-- Helper: `processServerJobs` preserves the invariant. -/
theorem stateInv_inject (s : SpoolerState) (fresh : Nat → String)
    (jobs : List ServerJob) (h : StateInv s) :
    StateInv (processServerJobs s fresh jobs) := by
  unfold processServerJobs
  simp only []
  split
  · exact h
  · exact stateInv_injectLoop fresh _ 0 s h

/-- Helper: every spooler operation preserves the retry-bound invariant. -/
theorem spoolerStep_stateInv (a b : SpoolerState) (hstep : SpoolerStep a b)
    (h : StateInv a) : StateInv b := by
  cases hstep with
  | add newId d => exact stateInv_addJob a newId d h
  | enter _ hs => exact stateInv_enter a b hs h
  | pop => exact stateInv_pop a h
  | resume res _ evs hs => exact stateInv_resume a res b evs hs h
  | cancel jobId => exact stateInv_cancel a jobId h
  | retry jobId => exact stateInv_retry a jobId h
  | finish hq =>
    intro j hj
    exact h j hj
  | inject fresh jobs => exact stateInv_inject a fresh jobs h

/-- C2: in every reachable spooler state, every active job satisfies
`retryCount ≤ maxRetries`; when a failing resumption emits `job-failed`,
the failed job's `retryCount` equals `maxRetries` exactly; and a failing
attempt at `retryCount = maxRetries` goes to `failed` and is dropped from
the active set — never re-queued. -/
theorem c2_retry_count_bounded (s : SpoolerState) (h : SpoolerReachable s) :
    StateInv s
    ∧ (∀ msg s' evs j e, dispatchResume s (.failure msg) = .ok (s', evs) →
        SpoolEvent.jobFailed j e ∈ evs → j.retryCount = s.maxRetries)
    ∧ (∀ cur msg, s.currentJob = some cur →
        cur.retryCount = s.maxRetries →
        dispatchResume s (.failure msg) =
          .ok ({ s with currentJob := none },
               [SpoolEvent.jobFailed
                  { cur with error := some msg, status := JobStatus.failed }
                  msg])) := by
  have hinv : StateInv s := by
    rcases h with ⟨s0, h1, h2, hsteps⟩
    have h0 : StateInv s0 := by
      intro j hj
      rw [mem_getJobQueue, h1, h2] at hj
      simp at hj
    clear h1 h2
    induction hsteps with
    | refl => exact h0
    | tail hab hbc ih => exact spoolerStep_stateInv _ _ hbc ih
  refine ⟨hinv, ?_, ?_⟩
  · intro msg s' evs j e hres hmem
    have hres' : dispatchCatch s msg = .ok (s', evs) := hres
    unfold dispatchCatch at hres'
    cases hc : s.currentJob with
    | none =>
      rw [hc] at hres'
      simp at hres'
    | some cur =>
      rw [hc] at hres'
      simp only [] at hres'
      have hcur : cur.retryCount ≤ s.maxRetries :=
        hinv cur ((mem_getJobQueue s cur).mpr (Or.inl hc))
      by_cases hrc : cur.retryCount < s.maxRetries
      · rw [if_pos hrc] at hres'
        simp only [Except.ok.injEq, Prod.mk.injEq] at hres'
        obtain ⟨-, hevs⟩ := hres'
        rw [← hevs] at hmem
        simp at hmem
      · rw [if_neg hrc] at hres'
        simp only [Except.ok.injEq, Prod.mk.injEq] at hres'
        obtain ⟨-, hevs⟩ := hres'
        rw [← hevs] at hmem
        simp only [List.mem_singleton, SpoolEvent.jobFailed.injEq] at hmem
        obtain ⟨hj, -⟩ := hmem
        rw [hj]
        show cur.retryCount = s.maxRetries
        omega
  · intro cur msg hc hrc
    show dispatchCatch s msg = _
    unfold dispatchCatch
    rw [hc]
    simp only []
    rw [if_neg (show ¬ (cur.retryCount < s.maxRetries) by omega)]

/-- C2 witness: the state reached by enqueueing one job, entering the
dispatch loop and popping the job is reachable and satisfies the retry
bound; a failing attempt with `retryCount = maxRetries` would go to
`failed` there. -/
theorem c2_retry_count_bounded_witness :
    StateInv c2sC
    ∧ (∀ cur msg, c2sC.currentJob = some cur →
        cur.retryCount = c2sC.maxRetries →
        dispatchResume c2sC (.failure msg) =
          .ok ({ c2sC with currentJob := none },
               [SpoolEvent.jobFailed
                  { cur with error := some msg, status := JobStatus.failed }
                  msg])) := by
  have hreach : SpoolerReachable c2sC := by
    refine ⟨c2s0, rfl, rfl, ?_⟩
    refine Relation.ReflTransGen.tail
      (Relation.ReflTransGen.tail
        (Relation.ReflTransGen.tail Relation.ReflTransGen.refl
          (SpoolerStep.add c2s0 "JW" sampleData))
        (SpoolerStep.enter c2sA c2sB (by decide)))
      (SpoolerStep.pop c2sB)
  have h := c2_retry_count_bounded c2sC hreach
  exact ⟨h.1, h.2.2⟩

/-- C10: `addJob` is atomic on failure — the queue-full throw happens
before the push and the `job-added` emit, so the returned state is the
input state and no event is emitted. -/
theorem c10_enqueue_atomic_on_failure (s : SpoolerState) (newId : String)
    (d : JobData) (h : s.maxQueueSize ≤ s.jobQueue.length) :
    addJob s newId d = (Except.error queueFullMsg, s, []) := by
  unfold addJob
  simp [ge_iff_le, h]

/-- C10 witness: a spooler with `maxQueueSize = 0` rejects the very first
enqueue and is left untouched. -/
theorem c10_enqueue_atomic_on_failure_witness :
    { jobQueue := ([] : List Job), currentJob := none, isProcessing := false,
      defaultPrinter := none, maxRetries := 3,
      maxQueueSize := 0 : SpoolerState }.maxQueueSize ≤ ([] : List Job).length
    ∧ addJob { jobQueue := [], currentJob := none, isProcessing := false,
               defaultPrinter := none, maxRetries := 3, maxQueueSize := 0 }
        "j1" sampleData =
      (Except.error queueFullMsg,
       { jobQueue := [], currentJob := none, isProcessing := false,
         defaultPrinter := none, maxRetries := 3, maxQueueSize := 0 },
       []) :=
  ⟨by decide,
   c10_enqueue_atomic_on_failure
     { jobQueue := [], currentJob := none, isProcessing := false,
       defaultPrinter := none, maxRetries := 3, maxQueueSize := 0 }
     "j1" sampleData (by decide)⟩

/-- Helper: the active-set view after a successful `addJob` is the old view
with the new job appended, and the new job is the queued record `mkJob`
builds. -/
theorem getJobQueue_addJob_ok (s : SpoolerState) (newId : String)
    (d : JobData) (job : Job) (s1 : SpoolerState) (evs : List SpoolEvent)
    (hadd : addJob s newId d = (.ok job, s1, evs)) :
    getJobQueue s1 = getJobQueue s ++ [job] ∧ job = mkJob newId d := by
  unfold addJob at hadd
  by_cases hfull : s.jobQueue.length ≥ s.maxQueueSize
  · simp [hfull] at hadd
  · simp only [hfull, if_false] at hadd
    simp only [Prod.mk.injEq, Except.ok.injEq] at hadd
    obtain ⟨hjob, hs1, -⟩ := hadd
    subst hjob
    refine ⟨?_, rfl⟩
    rw [← hs1]
    unfold getJobQueue
    cases s.currentJob <;> simp

/-- Helper: the active-set view after `setServerJobId` is the pointwise
update of the old view. -/
theorem getJobQueue_setServerJobId (s : SpoolerState) (lid sid' : String) :
    getJobQueue (setServerJobId s lid sid') =
      (getJobQueue s).map (fun j =>
        if (j.id == lid) = true then { j with serverJobId := some sid' }
        else j) := by
  unfold getJobQueue setServerJobId
  cases s.currentJob <;> simp

/-- Helper: appending a job that carries no `serverJobId` leaves the count
of any server id unchanged. -/
theorem countServerId_append_fresh (s s1 : SpoolerState) (job : Job)
    (sid : String) (hview : getJobQueue s1 = getJobQueue s ++ [job])
    (hnone : job.serverJobId = none) :
    countServerId s1 sid = countServerId s sid := by
  unfold countServerId
  rw [hview, List.filter_append]
  have : List.filter (fun j => j.serverJobId == some sid) [job] = [] := by
    simp [hnone]
  rw [this, List.append_nil]

/-- Helper: recording a `serverJobId` different from `sid` on jobs none of
which carried `sid` leaves the count of `sid` unchanged. -/
theorem countServerId_setServerJobId (s : SpoolerState) (lid sid' sid : String)
    (hne : sid' ≠ sid)
    (hsafe : ∀ j ∈ getJobQueue s, j.id = lid → j.serverJobId ≠ some sid) :
    countServerId (setServerJobId s lid sid') sid = countServerId s sid := by
  unfold countServerId
  rw [getJobQueue_setServerJobId]
  have hgen : ∀ l : List Job,
      (∀ j ∈ l, j.id = lid → j.serverJobId ≠ some sid) →
      (List.filter (fun j => j.serverJobId == some sid)
        (l.map (fun j =>
          if (j.id == lid) = true then { j with serverJobId := some sid' }
          else j))).length =
      (List.filter (fun j => j.serverJobId == some sid) l).length := by
    intro l
    induction l with
    | nil => intro _; rfl
    | cons x xs ih =>
      intro hl
      have hxs : ∀ j ∈ xs, j.id = lid → j.serverJobId ≠ some sid := by
        intro j hj
        exact hl j (List.mem_cons_of_mem _ hj)
      simp only [List.map_cons, List.filter_cons]
      by_cases hxid : (x.id == lid) = true
      · have hx : x.serverJobId ≠ some sid :=
          hl x (List.mem_cons_self _ _) (beq_iff_eq.mp hxid)
        have hpx : (x.serverJobId == some sid) = false := by
          rw [beq_eq_false_iff_ne]
          exact hx
        have hpx' : ((some sid' : Option String) == some sid) = false := by
          rw [beq_eq_false_iff_ne]
          intro hcontra
          exact hne (Option.some.injEq sid' sid ▸ hcontra)
        rw [if_pos hxid]
        simp only [hpx, hpx', Bool.false_eq_true, if_false]
        exact ih hxs
      · rw [if_neg hxid]
        by_cases hpx : (x.serverJobId == some sid) = true
        · simp only [hpx, if_true, List.length_cons]
          rw [ih hxs]
        · rw [Bool.not_eq_true] at hpx
          simp only [hpx, Bool.false_eq_true, if_false]
          exact ih hxs
  exact hgen (getJobQueue s) hsafe

/-- Helper: the injection loop never changes the count of a server id that
no batch entry carries, provided the fresh local ids cannot collide with
active jobs carrying that id. -/
theorem countServerId_injectLoop (sid : String) (fresh : Nat → String)
    (jobs : List ServerJob) :
    ∀ (n : Nat) (s : SpoolerState),
      (∀ sj ∈ jobs, sj.id ≠ some sid) →
      (∀ (k : Nat) (j : Job), j ∈ getJobQueue s → j.id = fresh k →
        j.serverJobId ≠ some sid) →
      countServerId (injectLoop fresh n s jobs) sid = countServerId s sid := by
  induction jobs with
  | nil =>
    intro n s _ _
    rfl
  | cons sj rest ih =>
    intro n s hjobs hsafe
    have hjobs' : ∀ x ∈ rest, x.id ≠ some sid := by
      intro x hx
      exact hjobs x (List.mem_cons_of_mem _ hx)
    unfold injectLoop
    rcases hadd : addJob s (fresh n) (serverJobToJobData sj) with ⟨r, s1, evs⟩
    cases r with
    | error msg =>
      have hs1 : s1 = s := by
        unfold addJob at hadd
        by_cases hfull : s.jobQueue.length ≥ s.maxQueueSize
        · simp only [hfull, if_true] at hadd
          simp only [Prod.mk.injEq] at hadd
          exact hadd.2.1.symm
        · simp [hfull] at hadd
      rw [hs1]
    | ok job =>
      obtain ⟨hview, hjob⟩ :=
        getJobQueue_addJob_ok s (fresh n) (serverJobToJobData sj) job s1 evs hadd
      have hjobnone : job.serverJobId = none := by
        rw [hjob]
        rfl
      have hcount1 : countServerId s1 sid = countServerId s sid :=
        countServerId_append_fresh s s1 job sid hview hjobnone
      have hsafe1 : ∀ (k : Nat) (j : Job), j ∈ getJobQueue s1 →
          j.id = fresh k → j.serverJobId ≠ some sid := by
        intro k j hj hid
        rw [hview] at hj
        rcases List.mem_append.mp hj with hold | hnew
        · exact hsafe k j hold hid
        · rw [List.mem_singleton] at hnew
          subst hnew
          rw [hjobnone]
          simp
      cases hid : sj.id with
      | none => exact (ih (n + 1) s1 hjobs' hsafe1).trans hcount1
      | some sid0 =>
        have hne : sid0 ≠ sid := by
          intro he
          subst he
          exact hjobs sj (List.mem_cons_self _ _) hid
        by_cases hz : (sid0 == "") = true
        · simp only [hz, if_true]
          exact (ih (n + 1) s1 hjobs' hsafe1).trans hcount1
        · simp only [hz, Bool.false_eq_true, if_false]
          have hsafe_set : ∀ j ∈ getJobQueue s1, j.id = job.id →
              j.serverJobId ≠ some sid := by
            intro j hj hjid
            apply hsafe1 n j hj
            rw [hjid, hjob]
            rfl
          have hcount2 : countServerId (setServerJobId s1 job.id sid0) sid =
              countServerId s1 sid :=
            countServerId_setServerJobId s1 job.id sid0 sid hne hsafe_set
          have hsafe2 : ∀ (k : Nat) (j : Job),
              j ∈ getJobQueue (setServerJobId s1 job.id sid0) →
              j.id = fresh k → j.serverJobId ≠ some sid := by
            intro k j hj hid'
            rw [getJobQueue_setServerJobId] at hj
            rcases List.mem_map.mp hj with ⟨j0, hj0, hfj0⟩
            by_cases hj0id : (j0.id == job.id) = true
            · rw [if_pos hj0id] at hfj0
              rw [← hfj0]
              simp only [ne_eq, Option.some.injEq]
              exact hne
            · rw [if_neg hj0id] at hfj0
              rw [← hfj0]
              apply hsafe1 k j0 hj0
              rw [← hfj0] at hid'
              exact hid'
          exact ((ih (n + 1) _ hjobs' hsafe2).trans hcount2).trans hcount1

/-- Helper: a server id recorded in the active set is never the empty
string (the `existingJobIds` collection skips falsy ids). -/
theorem activeServerIds_ne_empty_str (s : SpoolerState) (sid : String)
    (h : sid ∈ activeServerIds s) : (sid == "") = false := by
  unfold activeServerIds at h
  rw [List.mem_filterMap] at h
  obtain ⟨j, -, hf⟩ := h
  cases hs : j.serverJobId with
  | none =>
    rw [hs] at hf
    simp at hf
  | some sid1 =>
    rw [hs] at hf
    simp only [] at hf
    by_cases hz : (sid1 == "") = true
    · rw [if_pos hz] at hf
      simp at hf
    · rw [if_neg hz] at hf
      simp only [Option.some.injEq] at hf
      subst hf
      rw [Bool.not_eq_true] at hz
      exact hz

/-- C7 as stated fails within one polled batch: the `existingJobIds` filter
set is computed once before the loop and never updated, so a batch that
carries the same server id twice enqueues two active jobs with that
`serverJobId` (here from an empty spooler, so the id was not even
in flight). -/
theorem c7_duplicate_in_batch_counterexample :
    ¬ (∀ (s : SpoolerState) (fresh : Nat → String) (jobs : List ServerJob)
          (sid : String),
        countServerId s sid ≤ 1 →
        countServerId (processServerJobs s fresh jobs) sid ≤ 1) := by
  intro hclaim
  have h := hclaim c2s0 (fun n => if n = 0 then "jA" else "jB")
    [c7serverJob, c7serverJob] "s1" (by decide)
  exact absurd h (by decide)

/-- C7 amended: duplicate suppression does hold against the active set as
it stands when the poll begins — injecting a batch never changes the
number of active jobs carrying a server id that is already in flight
(every batch entry with that id is filtered out), provided the generated
local job ids are fresh; but the same id occurring twice inside one batch
is enqueued twice (see the counterexample). -/
theorem c7_no_duplicate_injection_for_inflight_ids (s : SpoolerState)
    (fresh : Nat → String) (jobs : List ServerJob) (sid : String)
    (hsid : sid ∈ activeServerIds s)
    (hfresh : ∀ (k : Nat) (j : Job), j ∈ getJobQueue s → j.id ≠ fresh k) :
    countServerId (processServerJobs s fresh jobs) sid = countServerId s sid := by
  unfold processServerJobs
  simp only []
  split
  · rfl
  · apply countServerId_injectLoop
    · intro sj hsj
      rw [List.mem_filter] at hsj
      obtain ⟨-, hkeep⟩ := hsj
      intro hid
      rw [hid] at hkeep
      simp only [] at hkeep
      have hne : (sid == "") = false := activeServerIds_ne_empty_str s sid hsid
      have hcont : (activeServerIds s).contains sid = true :=
        List.elem_eq_true_of_mem hsid
      rw [hne, hcont] at hkeep
      simp at hkeep
    · intro k j hj hid
      exact absurd hid (hfresh k j hj)

/-- C7 witness: with server id `s1` already on an active job, re-injecting
a batch that carries `s1` leaves exactly one active job with that id. -/
theorem c7_no_duplicate_injection_for_inflight_ids_witness :
    ("s1" ∈ activeServerIds c7state)
    ∧ countServerId (processServerJobs c7state (fun _ => "F") [c7serverJob])
        "s1" = countServerId c7state "s1" :=
  ⟨by decide,
   c7_no_duplicate_injection_for_inflight_ids c7state (fun _ => "F")
     [c7serverJob] "s1" (by decide)
     (fun k j hj => by
       have hj' : j = c7activeJob := List.mem_singleton.mp hj
       subst hj'
       show c7activeJob.id ≠ "F"
       decide)⟩
